import Mathlib

/-!
Verification of the openmls-wasm session/state wrapper
(`src/openmls-wasm/src/lib.rs`): a shallow embedding of the wasm-facing
Provider / Identity / KeyPackage / Group surface, with the out-of-scope
openmls protocol engine (wire codec, key schedule, AEAD) modelled from the
specification as a deterministic symbolic engine.

Machine bytes are modelled as `List Nat`; stateful Rust methods become
explicit state passing; fallible wasm calls return an `Outcome`, whose
`crash` constructor models an abort of the whole process (a Rust panic
such as `todo!()` or `Option::unwrap` on `None`), as distinct from a
`JsError` returned to the caller.
-/

/-- A byte string (machine bytes modelled as a list of naturals). -/
abbrev Bytes := List Nat

/-- The error taxonomy of the wrapper, from the specification's error
handling design (§7). -/
inductive Err where
  | invalidSeedLength
  | storageReadFailure
  | storageWriteFailure
  | serializationFailure
  | groupNotFound
  | unexpectedMessageType
  | unsupportedInboundType
  | noWelcomeProduced
  | engineError
deriving DecidableEq

/-- Result of a fallible wasm call.  `ok` and `err` are the two sides of
the Rust `Result<_, JsError>`; `crash` models a Rust panic (`todo!()`,
`unwrap()` on a failure), which terminates the process instead of
returning to the caller. -/
inductive Outcome (α : Type) where
  | ok (a : α)
  | err (e : Err)
  | crash (msg : String)
deriving DecidableEq

/-! ### Length-prefixed byte codec

Modelled from the spec: the tls_codec serialization used by the engine and
the base64-in-JSON storage snapshot encoding are not part of `src/`; both
are modelled as a lossless length-prefixed chunk encoding of binary
strings. -/

/-- Encode one binary string as a length-prefixed chunk. -/
def encodeChunk (bs : Bytes) : Bytes := bs.length :: bs

/-- Read one length-prefixed chunk, returning the chunk and the remaining
input. -/
def readChunk : Bytes → Option (Bytes × Bytes)
  | [] => none
  | n :: rest => if n ≤ rest.length then some (rest.take n, rest.drop n) else none

/-- Encode a list of binary strings as concatenated chunks. -/
def encodeChunks (l : List Bytes) : Bytes := l.flatMap encodeChunk

/-- Decode concatenated chunks (fuel-indexed; each chunk consumes at least
one input element, so `input.length` fuel always suffices). -/
def decodeChunksAux : Nat → Bytes → Option (List Bytes)
  | _, [] => some []
  | 0, _ :: _ => none
  | fuel + 1, bs => do
      let (c, rest) ← readChunk bs
      let cs ← decodeChunksAux fuel rest
      some (c :: cs)

/-- Decode a concatenation of length-prefixed chunks. -/
def decodeChunks (bs : Bytes) : Option (List Bytes) := decodeChunksAux bs.length bs

theorem readChunk_encodeChunk (bs tail : Bytes) :
    readChunk (encodeChunk bs ++ tail) = some (bs, tail) := by
  simp [encodeChunk, readChunk, List.take_left, List.drop_left]

theorem decodeChunksAux_encodeChunks (l : List Bytes) :
    ∀ fuel, l.length ≤ fuel → decodeChunksAux fuel (encodeChunks l) = some l := by
  induction l with
  | nil => intro fuel _; cases fuel <;> simp [encodeChunks, decodeChunksAux]
  | cons c cs ih =>
      intro fuel hf
      cases fuel with
      | zero => simp at hf
      | succ fuel =>
          have hcs : cs.length ≤ fuel := by simpa using hf
          have henc : encodeChunks (c :: cs) = encodeChunk c ++ encodeChunks cs := by
            simp [encodeChunks]
          have hne : encodeChunks (c :: cs) ≠ [] := by
            simp [henc, encodeChunk]
          cases hb : encodeChunks (c :: cs) with
          | nil => exact absurd hb hne
          | cons b bs =>
              rw [← hb]
              show (do
                let (c, rest) ← readChunk (encodeChunks (c :: cs))
                let cs ← decodeChunksAux fuel rest
                some (c :: cs)) = some (c :: cs)
              rw [henc, readChunk_encodeChunk, Option.bind_eq_bind]
              simp [ih fuel hcs]

theorem decodeChunks_encodeChunks (l : List Bytes) :
    decodeChunks (encodeChunks l) = some l := by
  have hlen : l.length ≤ (encodeChunks l).length := by
    induction l with
    | nil => simp [encodeChunks]
    | cons c cs ih =>
        have hsplit : encodeChunks (c :: cs) = encodeChunk c ++ encodeChunks cs := by
          simp [encodeChunks]
        rw [hsplit, List.length_append]
        have : (encodeChunk c).length = c.length + 1 := by simp [encodeChunk]
        rw [this, List.length_cons]
        omega
  exact decodeChunksAux_encodeChunks l _ hlen

/-! ### Protocol message data model

Modelled from the spec: the engine's wire messages are "binary,
produced/consumed via the protocol engine's canonical codec; this core
treats them as opaque byte sequences except for dispatching on their
declared message type (application / proposal / commit / welcome /
group-info / key-package)" (§6). -/

/-- A signed, publishable join-invitation: credential, public signing key
and a one-time initialization key (spec §3, `KeyPackage`). -/
structure KeyPackage where
  credential : Bytes
  signatureKey : Bytes
  initKey : Bytes
deriving DecidableEq

/-- A pending membership-change proposal (the wrapper only ever produces
add proposals). -/
inductive Proposal where
  | add (kp : KeyPackage)
deriving DecidableEq

/-- The content of a commit message: the epoch it moves the group to and
the key packages of the members it adds. -/
structure CommitData where
  newEpoch : Nat
  adds : List KeyPackage
deriving DecidableEq

/-- The content of a welcome message: enough for the invited member to
materialize the group state at the commit's epoch (the epoch secret is
carried encrypted to the new member's init key; symbolically it is carried
opaquely). -/
structure WelcomeData where
  groupId : Bytes
  epoch : Nat
  epochSecret : Bytes
deriving DecidableEq

/-- The body of a wire message, after type dispatch
(`MlsMessageBodyIn` in the source). -/
inductive MsgBody where
  | application (epoch : Nat) (ciphertext : Bytes)
  | proposal (p : Proposal)
  | commit (c : CommitData)
  | welcome (w : WelcomeData)
  | groupInfo (info : Bytes)
  | keyPackageMsg (kp : KeyPackage)
deriving DecidableEq

/-- Serialize a key package (`KeyPackage::tls_serialize_detached`;
modelled from the spec as a lossless chunk encoding). -/
def encodeKeyPackage (kp : KeyPackage) : Bytes :=
  encodeChunks [kp.credential, kp.signatureKey, kp.initKey]

/-- Parse a key package from its serialized form. -/
def decodeKeyPackage (bs : Bytes) : Option KeyPackage :=
  match decodeChunks bs with
  | some [c, s, i] => some ⟨c, s, i⟩
  | _ => none

theorem decodeKeyPackage_encodeKeyPackage (kp : KeyPackage) :
    decodeKeyPackage (encodeKeyPackage kp) = some kp := by
  simp [decodeKeyPackage, encodeKeyPackage, decodeChunks_encodeChunks]

/-- Parse each serialized key package in a list. -/
def decodeKeyPackageList : List Bytes → Option (List KeyPackage)
  | [] => some []
  | b :: bs => do
      let kp ← decodeKeyPackage b
      let kps ← decodeKeyPackageList bs
      some (kp :: kps)

/-- Serialize a wire message (`MlsMessageOut::tls_serialize`; modelled
from the spec as a tag byte followed by the body's fields). -/
def encodeMsg : MsgBody → Bytes
  | .application ep ct => 0 :: ep :: encodeChunk ct
  | .proposal (.add kp) => 1 :: encodeChunk (encodeKeyPackage kp)
  | .commit c => 2 :: c.newEpoch :: encodeChunks (c.adds.map encodeKeyPackage)
  | .welcome w => 3 :: w.epoch :: encodeChunk w.groupId ++ encodeChunk w.epochSecret
  | .groupInfo info => 4 :: encodeChunk info
  | .keyPackageMsg kp => 5 :: encodeChunk (encodeKeyPackage kp)

/-- Parse a wire message (`MlsMessageIn::tls_deserialize`; returns `none`
on input that is not a well-formed serialized protocol message). -/
def decodeMsg : Bytes → Option MsgBody
  | 0 :: ep :: rest => do
      let (ct, _) ← readChunk rest
      some (.application ep ct)
  | 1 :: rest => do
      let (kpb, _) ← readChunk rest
      let kp ← decodeKeyPackage kpb
      some (.proposal (.add kp))
  | 2 :: ep :: rest => do
      let chunks ← decodeChunks rest
      let adds ← decodeKeyPackageList chunks
      some (.commit ⟨ep, adds⟩)
  | 3 :: ep :: rest => do
      let (gid, rest1) ← readChunk rest
      let (sec, _) ← readChunk rest1
      some (.welcome ⟨gid, ep, sec⟩)
  | 4 :: rest => do
      let (info, _) ← readChunk rest
      some (.groupInfo info)
  | 5 :: rest => do
      let (kpb, _) ← readChunk rest
      let kp ← decodeKeyPackage kpb
      some (.keyPackageMsg kp)
  | _ => none

theorem decodeKeyPackageList_map (l : List KeyPackage) :
    decodeKeyPackageList (l.map encodeKeyPackage) = some l := by
  induction l with
  | nil => simp [decodeKeyPackageList]
  | cons kp kps ih =>
      simp [decodeKeyPackageList, decodeKeyPackage_encodeKeyPackage, ih]

theorem readChunk_encodeChunk_nil (bs : Bytes) :
    readChunk (encodeChunk bs) = some (bs, []) := by
  have h := readChunk_encodeChunk bs []
  simpa using h

theorem decodeMsg_encodeMsg (m : MsgBody) : decodeMsg (encodeMsg m) = some m := by
  cases m with
  | application ep ct =>
      simp [encodeMsg, decodeMsg, readChunk_encodeChunk_nil]
  | proposal p =>
      cases p with
      | add kp =>
          simp [encodeMsg, decodeMsg, readChunk_encodeChunk_nil,
            decodeKeyPackage_encodeKeyPackage]
  | commit c =>
      simp [encodeMsg, decodeMsg, decodeChunks_encodeChunks,
        decodeKeyPackageList_map]
  | welcome w =>
      simp [encodeMsg, decodeMsg, readChunk_encodeChunk,
        readChunk_encodeChunk_nil]
  | groupInfo info =>
      simp [encodeMsg, decodeMsg, readChunk_encodeChunk_nil]
  | keyPackageMsg kp =>
      simp [encodeMsg, decodeMsg, readChunk_encodeChunk_nil,
        decodeKeyPackage_encodeKeyPackage]

/-! ### Symbolic cryptographic engine

Modelled from the spec: key encapsulation, tree-based key derivation,
AEAD encryption/decryption and signatures are out of scope ("the
underlying protocol engine that performs the actual cryptographic math",
§1) and the engine crate is not under `src/`.  They are modelled as
deterministic symbolic operations whose only properties are the ones the
spec relies on: decryption under the right key inverts encryption, and
key derivation is a deterministic function of the epoch secret. -/

/-- Symbolic AEAD encryption under `key` (the ciphertext binds the key so
that decryption under a different key fails). -/
def aeadEncrypt (key m : Bytes) : Bytes := key.length :: (key ++ m)

/-- Symbolic AEAD decryption; fails unless the ciphertext was produced
under exactly `key`. -/
def aeadDecrypt (key c : Bytes) : Option Bytes :=
  match c with
  | [] => none
  | n :: rest =>
      if n = key.length ∧ rest.take key.length = key then some (rest.drop key.length)
      else none

theorem aeadDecrypt_aeadEncrypt (key m : Bytes) :
    aeadDecrypt key (aeadEncrypt key m) = some m := by
  simp [aeadEncrypt, aeadDecrypt, List.take_left, List.drop_left]

/-- The exporter of the key schedule (`MlsGroup::export_secret`): a
deterministic derivation from the epoch secret, the label, the context
and the requested length. -/
def exporterDerive (secret : Bytes) (label : String) (context : Bytes)
    (len : Nat) : Bytes :=
  (secret ++ (label.data.map Char.toNat) ++ context ++ List.replicate len 0).take len

/-- Key-schedule advance on a commit: the next epoch secret is a
deterministic function of the current epoch secret and the commit
content, so every member that processes the same commit from the same
epoch derives the same next secret. -/
def nextEpochSecret (secret : Bytes) (c : CommitData) : Bytes :=
  7 :: secret ++ c.newEpoch :: encodeChunks (c.adds.map encodeKeyPackage)

/-! ### Provider and KeyStore -/

/-- The persistent mapping from opaque binary keys to opaque binary
values backing a Provider (spec §3).  Entries are an association list;
earlier entries shadow later ones. -/
structure KeyStore where
  entries : List (Bytes × Bytes)
deriving DecidableEq

/-- Look a binary key up in the store. -/
def KeyStore.find (s : KeyStore) (k : Bytes) : Option Bytes :=
  go s.entries
where
  go : List (Bytes × Bytes) → Option Bytes
    | [] => none
    | (k1, v) :: rest => if k1 = k then some v else go rest

/-- A party's cryptographic context: a KeyStore plus an entropy source,
here a seed and a draw counter (`OpenMlsRustCrypto` behind the wasm
`Provider`; the spec requires that "a given seed deterministically
reproduces all subsequent randomness drawn from that Provider", §4.1). -/
structure Provider where
  store : KeyStore
  seed : Bytes
  ctr : Nat
deriving DecidableEq

/-- Draw fresh bytes from the Provider's entropy source. -/
def Provider.draw (p : Provider) : Bytes × Provider :=
  (p.seed ++ [p.ctr], { p with ctr := p.ctr + 1 })

/-- `Provider::create(seed)` (source lines 50-60): a present seed must be
exactly 32 bytes, otherwise the call fails; no seed means an OS entropy
source, modelled as the empty seed. -/
def Provider.create (seed : Option Bytes) : Outcome Provider :=
  match seed with
  | some s =>
      if s.length = 32 then .ok ⟨⟨[]⟩, s, 0⟩
      else .err .invalidSeedLength
  | none => .ok ⟨⟨[]⟩, [], 0⟩

/-- Modelled from the spec: `exportStorage()` "produces a self-contained
snapshot of every key/value pair currently in the KeyStore, encoded so
binary keys/values survive a text-safe transport" (§4.1); the operation
is absent from `src/`.  The snapshot is the chunk encoding of the
flattened key/value list. -/
def Provider.exportStorage (p : Provider) : Outcome Bytes :=
  .ok (encodeChunks (p.store.entries.flatMap (fun e => [e.1, e.2])))

/-- Re-pair a flattened key/value list; fails on an odd number of
chunks. -/
def pairUpChunks : List Bytes → Option (List (Bytes × Bytes))
  | [] => some []
  | [_] => none
  | k :: v :: rest => do
      let es ← pairUpChunks rest
      some ((k, v) :: es)

/-- Modelled from the spec: `importStorage(snapshot)` "parses a snapshot
and merges its entries into the KeyStore (existing keys are overwritten)"
(§4.1); absent from `src/`.  Imported entries are prepended so they
shadow existing ones. -/
def Provider.importStorage (p : Provider) (snapshot : Bytes) : Outcome Provider :=
  match decodeChunks snapshot with
  | none => .err .serializationFailure
  | some chunks =>
      match pairUpChunks chunks with
      | none => .err .serializationFailure
      | some es => .ok { p with store := ⟨es ++ p.store.entries⟩ }

/-- Modelled from the spec: `createFromStorage(seed?, snapshot)` is the
"convenience composition of create + importStorage" (§4.1). -/
def Provider.createFromStorage (seed : Option Bytes) (snapshot : Bytes) :
    Outcome Provider :=
  match Provider.create seed with
  | .ok p => p.importStorage snapshot
  | .err e => .err e
  | .crash m => .crash m

/-! ### Identity -/

/-- An Ed25519 signing keypair (`openmls_basic_credential::SignatureKeyPair`).
The public key is a symbolic one-way image of the private key. -/
structure SignatureKeyPair where
  privateKey : Bytes
  publicKey : Bytes
deriving DecidableEq

/-- Symbolic public-key derivation for freshly generated keypairs. -/
def sigPublicOf (sk : Bytes) : Bytes := sk.map (· + 1)

/-- `SignatureKeyPair::new`: generate a fresh keypair from entropy. -/
def SignatureKeyPair.generate (seed : Bytes) : SignatureKeyPair :=
  ⟨seed, sigPublicOf seed⟩

/-- Modelled from the spec: `SignatureKeyPair::tls_serialize_detached`
(the codec lives in the engine crates, not under `src/`); a lossless
chunk encoding of both key halves. -/
def serializeKeyPair (kp : SignatureKeyPair) : Bytes :=
  encodeChunks [kp.privateKey, kp.publicKey]

/-- Modelled from the spec: `SignatureKeyPair::tls_deserialize` of
previously exported keypair bytes; fails on malformed input. -/
def deserializeKeyPair (bs : Bytes) : Option SignatureKeyPair :=
  match decodeChunks bs with
  | some [sk, pk] => some ⟨sk, pk⟩
  | _ => none

theorem deserializeKeyPair_serializeKeyPair (kp : SignatureKeyPair) :
    deserializeKeyPair (serializeKeyPair kp) = some kp := by
  simp [deserializeKeyPair, serializeKeyPair, decodeChunks_encodeChunks]

/-- The storage key under which `SignatureKeyPair::store` persists the
keypair (keyed by its public key). -/
def keypairStorageKey (pk : Bytes) : Bytes := 11 :: pk

/-- A long-term credential (the display name's bytes) bound to a signing
keypair (`Identity` in the source: `credential_with_key` plus
`keypair`). -/
structure Identity where
  credential : Bytes
  keypair : SignatureKeyPair
deriving DecidableEq

/-- The bytes of a display name (`name.bytes().collect()`). -/
def strBytes (s : String) : Bytes := s.data.map Char.toNat

/-- `Identity::create(provider, name, keypair_bytes)` (source lines
72-94): build the credential from `name`, deserialize the supplied
keypair bytes or generate a fresh keypair, and persist the keypair into
the provider's KeyStore as a side effect. -/
def Identity.create (provider : Provider) (name : String)
    (keypairBytes : Option Bytes) : Outcome (Identity × Provider) :=
  let credential := strBytes name
  match keypairBytes with
  | some bs =>
      match deserializeKeyPair bs with
      | none => .err .serializationFailure
      | some kp =>
          .ok (⟨credential, kp⟩,
            { provider with
                store := ⟨(keypairStorageKey kp.publicKey, serializeKeyPair kp) ::
                  provider.store.entries⟩ })
  | none =>
      let (r, p1) := provider.draw
      let kp := SignatureKeyPair.generate r
      .ok (⟨credential, kp⟩,
        { p1 with
            store := ⟨(keypairStorageKey kp.publicKey, serializeKeyPair kp) ::
              p1.store.entries⟩ })

/-- `Identity::get_key_package` (source lines 96-109): mint a fresh
one-time KeyPackage signed by this identity (the one-time init key is
drawn from the provider's entropy). -/
def Identity.get_key_package (id : Identity) (provider : Provider) :
    KeyPackage × Provider :=
  let (r, p1) := provider.draw
  (⟨id.credential, id.keypair.publicKey, r⟩, p1)

/-- `Identity::get_public_key_bytes` (source lines 111-113). -/
def Identity.get_public_key_bytes (id : Identity) : Bytes :=
  id.keypair.publicKey

/-- `Identity::export_keypair_bytes` (source lines 116-118). -/
def Identity.export_keypair_bytes (id : Identity) : Outcome Bytes :=
  .ok (serializeKeyPair id.keypair)

/-- Modelled from the spec: `getCredentialBytes()` "serializes the
credential alone" (§4.2); the accessor is absent from `src/`. -/
def Identity.get_credential_bytes (id : Identity) : Bytes :=
  id.credential

/-! ### Group state machine

The local view of the shared group state (spec §3: "group identifier,
current epoch, member tree, pending proposals, epoch secrets (opaque,
held by the engine)").  A locally produced but not yet merged commit is
held as a staged next state (*PendingCommit*). -/

/-- The staged result of a locally produced commit, merged into the group
by `merge_pending_commit`. -/
structure StagedState where
  epoch : Nat
  members : List (Bytes × Bytes)
  epochSecret : Bytes
deriving DecidableEq

/-- The group lifecycle state machine (`Group` wrapping `MlsGroup`).
`pendingCommit = none` is the *Active* state; `pendingCommit = some _` is
*PendingCommit*. -/
structure GroupState where
  groupId : Bytes
  epoch : Nat
  members : List (Bytes × Bytes)
  epochSecret : Bytes
  pendingProposals : List Proposal
  pendingCommit : Option StagedState
deriving DecidableEq

/-- The exported public tree structure describing current membership
(`RatchetTree`): each leaf is a credential with its signature key. -/
abbrev RatchetTree := List (Bytes × Bytes)

/-- The proposal/commit/welcome triple returned by
`propose_and_commit_add` (`AddMessages`, source lines 127-131), each as a
serialized wire message. -/
structure AddMessages where
  proposal : Bytes
  commit : Bytes
  welcome : Bytes
deriving DecidableEq

namespace Group

/-- `Group::create_new(provider, founder, group_id)` (source lines
159-173): found a new group at epoch 0 with the founder as sole member;
the initial epoch secret is drawn from the provider's entropy. -/
def create_new (provider : Provider) (founder : Identity)
    (groupId : String) : GroupState × Provider :=
  let (r, p1) := provider.draw
  ({ groupId := strBytes groupId
     epoch := 0
     members := [(founder.credential, founder.keypair.publicKey)]
     epochSecret := r
     pendingProposals := []
     pendingCommit := none }, p1)

/-- `Group::join(provider, welcome, ratchet_tree)` (source lines
174-191): deserialize the message, require it to be a welcome — any
other type is an error — and materialize the group state the welcome
targets, taking the member tree from the supplied ratchet tree. -/
def join (provider : Provider) (welcomeBytes : Bytes) (ratchetTree : RatchetTree) :
    Outcome (GroupState × Provider) :=
  match decodeMsg welcomeBytes with
  | none => .err .serializationFailure
  | some (.welcome w) =>
      .ok ({ groupId := w.groupId
             epoch := w.epoch
             members := ratchetTree
             epochSecret := w.epochSecret
             pendingProposals := []
             pendingCommit := none }, provider)
  | some _ => .err .unexpectedMessageType

/-- `Group::export_ratchet_tree` (source lines 193-195). -/
def export_ratchet_tree (g : GroupState) : RatchetTree := g.members

/-- The key packages added by a list of proposals. -/
def addsOf (ps : List Proposal) : List KeyPackage :=
  ps.map (fun p => match p with | .add kp => kp)

/-- `Group::propose_and_commit_add(provider, sender, new_member)` (source
lines 197-222): propose adding the new member's key package, then commit
all pending proposals.  The engine stages the commit (the local epoch
does not advance) and yields a welcome exactly when the commit adds
members; a missing welcome is surfaced as an error instead of a partial
result. -/
def propose_and_commit_add (g : GroupState) (provider : Provider)
    (sender : Identity) (newMember : KeyPackage) :
    Outcome (AddMessages × GroupState × Provider) :=
  -- propose_add_member
  let pending := g.pendingProposals ++ [Proposal.add newMember]
  let proposalMsg := MsgBody.proposal (.add newMember)
  -- commit_to_pending_proposals: stage a commit over every pending proposal
  let adds := addsOf pending
  let cd : CommitData := ⟨g.epoch + 1, adds⟩
  let newSecret := nextEpochSecret g.epochSecret cd
  let staged : StagedState :=
    ⟨g.epoch + 1,
     g.members ++ adds.map (fun kp => (kp.credential, kp.signatureKey)),
     newSecret⟩
  let commitMsg := MsgBody.commit cd
  let welcomeOpt : Option MsgBody :=
    if adds.isEmpty then none
    else some (.welcome ⟨g.groupId, g.epoch + 1, newSecret⟩)
  let g1 : GroupState :=
    { g with pendingProposals := [], pendingCommit := some staged }
  -- welcome_msg.ok_or(NoWelcomeError)?
  match welcomeOpt with
  | none => .err .noWelcomeProduced
  | some w =>
      .ok (⟨encodeMsg proposalMsg, encodeMsg commitMsg, encodeMsg w⟩, g1, provider)

/-- `Group::merge_pending_commit(provider)` (source lines 224-228):
advance the local state to the staged commit's epoch (*PendingCommit →
Active*); calling without a pending commit is a caller error surfaced by
the engine. -/
def merge_pending_commit (g : GroupState) (provider : Provider) :
    Outcome (GroupState × Provider) :=
  match g.pendingCommit with
  | some st =>
      .ok ({ g with
               epoch := st.epoch
               members := st.members
               epochSecret := st.epochSecret
               pendingProposals := []
               pendingCommit := none }, provider)
  | none => .err .engineError

/-- `Group::create_message(provider, sender, msg)` (source lines
230-242): encrypt the plaintext under the current epoch's keys and
serialize the resulting application message. -/
def create_message (g : GroupState) (provider : Provider) (sender : Identity)
    (msg : Bytes) : Outcome (Bytes × GroupState) :=
  .ok (encodeMsg (.application g.epoch (aeadEncrypt g.epochSecret msg)), g)

/-- `Group::process_message(provider, msg)` (source lines 244-278), the
inbound dispatch.  Faithful to the source, not the spec: a message that
fails to deserialize hits `.unwrap()` (line 249) and a welcome,
group-info or key-package body hits `todo!()` (lines 259-261) — both
abort the process (`crash`) instead of returning an error.  An
application message is decrypted and its plaintext returned; a proposal
is recorded as pending; an inbound commit is merged immediately. -/
def process_message (g : GroupState) (provider : Provider) (raw : Bytes) :
    Outcome (Bytes × GroupState × Provider) :=
  match decodeMsg raw with
  | none => .crash "called `Option::unwrap()` on a `None` value"
  | some body =>
      match body with
      | .welcome _ => .crash "not yet implemented"
      | .groupInfo _ => .crash "not yet implemented"
      | .keyPackageMsg _ => .crash "not yet implemented"
      | .application ep ct =>
          if ep = g.epoch then
            match aeadDecrypt g.epochSecret ct with
            | some pt => .ok (pt, g, provider)
            | none => .err .engineError
          else .err .engineError
      | .proposal p =>
          .ok ([], { g with pendingProposals := g.pendingProposals ++ [p] },
            provider)
      | .commit cd =>
          if cd.newEpoch = g.epoch + 1 then
            .ok ([],
              { g with
                  epoch := cd.newEpoch
                  members := g.members ++
                    cd.adds.map (fun kp => (kp.credential, kp.signatureKey))
                  epochSecret := nextEpochSecret g.epochSecret cd
                  pendingProposals := []
                  pendingCommit := none }, provider)
          else .err .engineError

/-- `Group::export_key(provider, label, context, key_length)` (source
lines 280-293): derive an application secret from the current epoch's
key schedule.  The source method takes `&self`: it cannot mutate the
group. -/
def export_key (g : GroupState) (provider : Provider) (label : String)
    (context : Bytes) (keyLength : Nat) : Outcome Bytes :=
  .ok (exporterDerive g.epochSecret label context keyLength)

end Group

/-- The wasm-visible operations on a live Group, with their arguments
(one constructor per `&mut self`/`&self` method used in ongoing group
operation). -/
inductive GroupOp where
  | exportKeyOp (provider : Provider) (label : String) (context : Bytes)
      (keyLength : Nat)
  | createMessageOp (provider : Provider) (sender : Identity) (msg : Bytes)
  | processMessageOp (provider : Provider) (raw : Bytes)
  | mergePendingCommitOp (provider : Provider)

/-- One wasm call against a Group: returns the produced bytes (empty for
operations that return unit) and the Group state after the call.
`export_key` takes `&self` in the source, so its case returns the group
unchanged. -/
def applyGroupOp (g : GroupState) : GroupOp → Outcome (Bytes × GroupState)
  | .exportKeyOp p label ctx len =>
      match Group.export_key g p label ctx len with
      | .ok b => .ok (b, g)
      | .err e => .err e
      | .crash m => .crash m
  | .createMessageOp p sender msg => Group.create_message g p sender msg
  | .processMessageOp p raw =>
      match Group.process_message g p raw with
      | .ok (b, g1, _) => .ok (b, g1)
      | .err e => .err e
      | .crash m => .crash m
  | .mergePendingCommitOp p =>
      match Group.merge_pending_commit g p with
      | .ok (g1, _) => .ok ([], g1)
      | .err e => .err e
      | .crash m => .crash m

/-! ### Claims -/

theorem isEmpty_append_singleton {α : Type} (l : List α) (x : α) :
    (l ++ [x]).isEmpty = false := by
  cases l <;> rfl

/-- C6: after a successful `propose_and_commit_add` the local epoch is
unchanged and the Group is in *PendingCommit*; a subsequent
`merge_pending_commit` succeeds and advances the Group to the new epoch,
back in *Active*. -/
theorem c6_propose_then_merge_epoch
    (g : GroupState) (p : Provider) (sender : Identity) (kp : KeyPackage)
    (msgs : AddMessages) (g1 : GroupState) (p1 : Provider)
    (h : Group.propose_and_commit_add g p sender kp = .ok (msgs, g1, p1)) :
    g1.epoch = g.epoch ∧ g1.pendingCommit.isSome = true ∧
    ∃ g2 p2, Group.merge_pending_commit g1 p1 = .ok (g2, p2) ∧
      g2.epoch = g.epoch + 1 ∧ g2.pendingCommit = none := by
  simp [Group.propose_and_commit_add, Group.addsOf, isEmpty_append_singleton] at h
  obtain ⟨-, hg1, hp1⟩ := h
  subst hg1
  refine ⟨rfl, rfl, ?_⟩
  exact ⟨_, _, rfl, rfl, rfl⟩

/-- C7: `join` on bytes that deserialize to any message type other than a
welcome fails with `UnexpectedMessageType`, and no Group is
constructed. -/
theorem c7_join_rejects_non_welcome
    (p : Provider) (bs : Bytes) (rt : RatchetTree) (body : MsgBody)
    (hdec : decodeMsg bs = some body)
    (hnw : ∀ w, body ≠ MsgBody.welcome w) :
    Group.join p bs rt = .err .unexpectedMessageType := by
  unfold Group.join
  rw [hdec]
  cases body with
  | welcome w => exact absurd rfl (hnw w)
  | application ep ct => rfl
  | proposal pr => rfl
  | commit c => rfl
  | groupInfo info => rfl
  | keyPackageMsg kp => rfl

/-- C8: `propose_and_commit_add` either returns all three messages
(proposal, commit, welcome) or fails with `NoWelcomeProduced`; it never
returns a partial result. -/
theorem c8_add_all_or_no_welcome
    (g : GroupState) (p : Provider) (sender : Identity) (kp : KeyPackage) :
    (∃ msgs g1 p1,
        Group.propose_and_commit_add g p sender kp = .ok (msgs, g1, p1)) ∨
      Group.propose_and_commit_add g p sender kp = .err .noWelcomeProduced := by
  left
  unfold Group.propose_and_commit_add
  simp [Group.addsOf, isEmpty_append_singleton]

/-- C10: `export_key` never mutates the Group — the state after the call
is the starting state, and an immediately repeated call with the same
arguments returns the same bytes. -/
theorem c10_export_key_frame
    (g : GroupState) (p : Provider) (label : String) (context : Bytes)
    (len : Nat) (b : Bytes) (g1 : GroupState)
    (h : applyGroupOp g (.exportKeyOp p label context len) = .ok (b, g1)) :
    g1 = g ∧ applyGroupOp g1 (.exportKeyOp p label context len) = .ok (b, g1) := by
  simp only [applyGroupOp, Group.export_key, Outcome.ok.injEq, Prod.mk.injEq] at h
  obtain ⟨hb, hg⟩ := h
  subst hg
  subst hb
  exact ⟨rfl, rfl⟩

/-- C9: recreating an Identity on any other Provider from the same name
and the first Identity's exported keypair bytes succeeds and yields the
same public signing key bytes and the same credential bytes. -/
theorem c9_identity_recovery
    (p1 p2 : Provider) (n : String) (kb : Option Bytes)
    (id1 : Identity) (p1a : Provider) (eb : Bytes)
    (hcreate : Identity.create p1 n kb = .ok (id1, p1a))
    (hexport : id1.export_keypair_bytes = .ok eb) :
    ∃ id2 p2a,
      Identity.create p2 n (some eb) = .ok (id2, p2a) ∧
      id2.get_public_key_bytes = id1.get_public_key_bytes ∧
      id2.get_credential_bytes = id1.get_credential_bytes := by
  have heb : eb = serializeKeyPair id1.keypair := by
    simp only [Identity.export_keypair_bytes, Outcome.ok.injEq] at hexport
    exact hexport.symm
  have hcred : id1.credential = strBytes n := by
    cases kb with
    | none =>
        simp only [Identity.create, Provider.draw, Outcome.ok.injEq,
          Prod.mk.injEq] at hcreate
        obtain ⟨hid, -⟩ := hcreate
        rw [← hid]
    | some bs =>
        simp only [Identity.create] at hcreate
        cases hdes : deserializeKeyPair bs with
        | none => rw [hdes] at hcreate; exact absurd hcreate (by simp)
        | some kp =>
            rw [hdes] at hcreate
            simp only [Outcome.ok.injEq, Prod.mk.injEq] at hcreate
            obtain ⟨hid, -⟩ := hcreate
            rw [← hid]
  refine ⟨⟨strBytes n, id1.keypair⟩,
    { p2 with store := ⟨(keypairStorageKey id1.keypair.publicKey,
        serializeKeyPair id1.keypair) :: p2.store.entries⟩ }, ?_, ?_, ?_⟩
  · rw [heb]
    simp [Identity.create, deserializeKeyPair_serializeKeyPair]
  · rfl
  · simp [Identity.get_credential_bytes, hcred]

/-- C2: a wire message produced by `create_message` from a non-empty
plaintext is returned exactly as that plaintext by `process_message` on
any member's Group at the same epoch of the same logical group (equal
epoch and epoch secret). -/
theorem c2_message_roundtrip
    (gS gR : GroupState) (pS pR : Provider) (sender : Identity)
    (pt out : Bytes) (gS1 : GroupState)
    (hepoch : gR.epoch = gS.epoch)
    (hsecret : gR.epochSecret = gS.epochSecret)
    (hne : pt ≠ [])
    (hcreate : Group.create_message gS pS sender pt = .ok (out, gS1)) :
    ∃ gR1 pR1, Group.process_message gR pR out = .ok (pt, gR1, pR1) := by
  simp only [Group.create_message, Outcome.ok.injEq, Prod.mk.injEq] at hcreate
  obtain ⟨hout, -⟩ := hcreate
  refine ⟨gR, pR, ?_⟩
  rw [← hout]
  unfold Group.process_message
  rw [decodeMsg_encodeMsg]
  simp [hepoch, hsecret, aeadDecrypt_aeadEncrypt]

/-- C1: two Group instances derived from the same founding/add sequence —
the adder after `merge_pending_commit` and the invited member joined from
the corresponding welcome plus exported ratchet tree — are at the same
epoch, and `export_key` with identical label, context and length returns
identical bytes on both, whichever Provider each side passes. -/
theorem c1_export_key_agreement
    (g : GroupState) (pA pA1 pA2 pB pB1 : Provider) (sender : Identity)
    (kp : KeyPackage) (msgs : AddMessages) (g1 gF gJ : GroupState)
    (hadd : Group.propose_and_commit_add g pA sender kp = .ok (msgs, g1, pA1))
    (hmerge : Group.merge_pending_commit g1 pA1 = .ok (gF, pA2))
    (hjoin : Group.join pB msgs.welcome (Group.export_ratchet_tree gF) =
      .ok (gJ, pB1)) :
    gJ.epoch = gF.epoch ∧
    ∀ (pX pY : Provider) (label : String) (context : Bytes) (len : Nat),
      Group.export_key gF pX label context len =
        Group.export_key gJ pY label context len := by
  simp [Group.propose_and_commit_add, Group.addsOf, isEmpty_append_singleton]
    at hadd
  obtain ⟨hmsgs, hg1, -⟩ := hadd
  subst hg1
  simp only [Group.merge_pending_commit, Outcome.ok.injEq, Prod.mk.injEq]
    at hmerge
  obtain ⟨hgF, -⟩ := hmerge
  rw [← hmsgs] at hjoin
  dsimp only at hjoin
  unfold Group.join at hjoin
  rw [decodeMsg_encodeMsg] at hjoin
  simp only [Outcome.ok.injEq, Prod.mk.injEq] at hjoin
  obtain ⟨hgJ, -⟩ := hjoin
  subst hgJ
  subst hgF
  exact ⟨rfl, fun pX pY label context len => rfl⟩

/-- A concrete Active group used to evaluate `process_message` on
concrete inbound bytes. -/
def gDemo : GroupState := ⟨[1], 0, [([2], [3])], [5], [], none⟩

/-- A concrete provider for the same evaluations. -/
def pDemo : Provider := ⟨⟨[]⟩, [], 0⟩

/-- C3 (code bug): `process_message` on a serialized welcome, group-info
or key-package message does not return an `UnsupportedInboundType` error
— it hits `todo!()` (source lines 259-261) and aborts the process. -/
theorem c3_process_message_inbound_types_crash :
    Group.process_message gDemo pDemo (encodeMsg (.welcome ⟨[1], 1, [6]⟩)) =
      .crash "not yet implemented" ∧
    Group.process_message gDemo pDemo (encodeMsg (.groupInfo [7])) =
      .crash "not yet implemented" ∧
    Group.process_message gDemo pDemo
        (encodeMsg (.keyPackageMsg ⟨[1], [2], [3]⟩)) =
      .crash "not yet implemented" :=
  ⟨rfl, rfl, rfl⟩

/-- C4 (code bug): `process_message` on bytes that are not a well-formed
serialized protocol message does not return a `SerializationFailure`
error — the deserialization result is `unwrap`ped (source line 249) and
the process aborts. -/
theorem c4_process_message_malformed_crash :
    Group.process_message gDemo pDemo [] =
      .crash "called `Option::unwrap()` on a `None` value" ∧
    Group.process_message gDemo pDemo [99] =
      .crash "called `Option::unwrap()` on a `None` value" :=
  ⟨rfl, rfl⟩

theorem pairUpChunks_flatten (l : List (Bytes × Bytes)) :
    pairUpChunks (l.flatMap (fun e => [e.1, e.2])) = some l := by
  induction l with
  | nil => rfl
  | cons e es ih =>
      obtain ⟨k, v⟩ := e
      show pairUpChunks (k :: v :: es.flatMap fun e => [e.1, e.2]) =
        some ((k, v) :: es)
      simp [pairUpChunks, ih]

theorem find_go_append (k : Bytes) (l1 l2 : List (Bytes × Bytes)) :
    KeyStore.find.go k (l1 ++ l2) =
      match KeyStore.find.go k l1 with
      | some v => some v
      | none => KeyStore.find.go k l2 := by
  induction l1 with
  | nil => simp [KeyStore.find.go]
  | cons e es ih =>
      obtain ⟨k1, v⟩ := e
      by_cases h : k1 = k <;> simp [KeyStore.find.go, h, ih]

theorem find_go_self_append (s : List (Bytes × Bytes)) (k : Bytes) :
    KeyStore.find.go k (s ++ s) = KeyStore.find.go k s := by
  rw [find_go_append]
  cases h : KeyStore.find.go k s <;> simp

/-- C5: importing the exported snapshot back into the same Provider is a
no-op on the KeyStore's contents, and a fresh Provider created from the
snapshot resolves every stored key — hence every derivable public key and
key-package component recoverable from storage — exactly as the
original. -/
theorem c5_storage_roundtrip
    (p : Provider) (snap : Bytes)
    (hexp : p.exportStorage = .ok snap) :
    (∃ p1, p.importStorage snap = .ok p1 ∧
        ∀ k, p1.store.find k = p.store.find k) ∧
    (∃ p2, Provider.createFromStorage none snap = .ok p2 ∧
        ∀ k, p2.store.find k = p.store.find k) := by
  have hsnap : snap =
      encodeChunks (p.store.entries.flatMap (fun e => [e.1, e.2])) := by
    simp only [Provider.exportStorage, Outcome.ok.injEq] at hexp
    exact hexp.symm
  subst hsnap
  constructor
  · refine ⟨{ p with store := ⟨p.store.entries ++ p.store.entries⟩ }, ?_, ?_⟩
    · simp [Provider.importStorage, decodeChunks_encodeChunks,
        pairUpChunks_flatten]
    · intro k
      show KeyStore.find ⟨p.store.entries ++ p.store.entries⟩ k = _
      unfold KeyStore.find
      exact find_go_self_append p.store.entries k
  · refine ⟨{ store := ⟨p.store.entries⟩, seed := [], ctr := 0 }, ?_, ?_⟩
    · simp [Provider.createFromStorage, Provider.create, Provider.importStorage,
        decodeChunks_encodeChunks, pairUpChunks_flatten]
    · intro k
      rfl

/-! ### Concrete scenario

A concrete founder/add/merge/join run used to evaluate the claims on
explicit inputs (the founder creates a group, adds a member, merges the
commit, and the member joins from the welcome plus exported ratchet
tree). -/

/-- Extract the value of a successful call (with a default for the
failure cases, used only to name intermediate results). -/
def outcomeValue {α : Type} (o : Outcome α) (d : α) : α :=
  match o with
  | .ok a => a
  | _ => d

def wProv : Provider := ⟨⟨[]⟩, [], 0⟩

def wAlice : Identity := ⟨strBytes "alice", ⟨[3], sigPublicOf [3]⟩⟩

def wBobKP : KeyPackage := ⟨strBytes "bob", [9], [4]⟩

def wCreate : GroupState × Provider := Group.create_new wProv wAlice "chess club"

def wG0 : GroupState := wCreate.1

def wPA0 : Provider := wCreate.2

def wAdd : AddMessages × GroupState × Provider :=
  outcomeValue (Group.propose_and_commit_add wG0 wPA0 wAlice wBobKP)
    (⟨[], [], []⟩, wG0, wPA0)

def wMsgs : AddMessages := wAdd.1

def wG1 : GroupState := wAdd.2.1

def wPA1 : Provider := wAdd.2.2

def wMerge : GroupState × Provider :=
  outcomeValue (Group.merge_pending_commit wG1 wPA1) (wG1, wPA1)

def wGF : GroupState := wMerge.1

def wPA2 : Provider := wMerge.2

def wJoin : GroupState × Provider :=
  outcomeValue (Group.join wProv wMsgs.welcome (Group.export_ratchet_tree wGF))
    (wGF, wProv)

def wGJ : GroupState := wJoin.1

def wPB1 : Provider := wJoin.2

/-- Witness for C1: the concrete run satisfies the hypotheses, and the
founder's and the joiner's groups agree on every exported key. -/
theorem c1_export_key_agreement_witness :
    Group.propose_and_commit_add wG0 wPA0 wAlice wBobKP =
      .ok (wMsgs, wG1, wPA1) ∧
    Group.merge_pending_commit wG1 wPA1 = .ok (wGF, wPA2) ∧
    Group.join wProv wMsgs.welcome (Group.export_ratchet_tree wGF) =
      .ok (wGJ, wPB1) ∧
    (wGJ.epoch = wGF.epoch ∧
      ∀ (pX pY : Provider) (label : String) (context : Bytes) (len : Nat),
        Group.export_key wGF pX label context len =
          Group.export_key wGJ pY label context len) :=
  ⟨by decide, by decide, by decide,
    c1_export_key_agreement wG0 wPA0 wPA1 wPA2 wProv wPB1 wAlice wBobKP wMsgs
      wG1 wGF wGJ (by decide) (by decide) (by decide)⟩

/-- The literal plaintext of the spec's message round-trip case. -/
def wPT : Bytes := strBytes "hello, bob!"

def wMsgOut : Bytes × GroupState :=
  outcomeValue (Group.create_message wGF wPA2 wAlice wPT) ([], wGF)

/-- Witness for C2: the founder encrypts "hello, bob!" at the joint
epoch and the joiner's `process_message` returns it exactly. -/
theorem c2_message_roundtrip_witness :
    wGJ.epoch = wGF.epoch ∧ wGJ.epochSecret = wGF.epochSecret ∧ wPT ≠ [] ∧
    Group.create_message wGF wPA2 wAlice wPT = .ok (wMsgOut.1, wMsgOut.2) ∧
    ∃ gR1 pR1, Group.process_message wGJ wPB1 wMsgOut.1 = .ok (wPT, gR1, pR1) :=
  ⟨by decide, by decide, by decide, by decide,
    c2_message_roundtrip wGF wGJ wPA2 wPB1 wAlice wPT wMsgOut.1 wMsgOut.2
      (by decide) (by decide) (by decide) (by decide)⟩

/-- A provider with a non-empty KeyStore for the storage round-trip. -/
def wProvStore : Provider := ⟨⟨[([1], [2]), ([3], [4])]⟩, [], 0⟩

def wSnap : Bytes := outcomeValue wProvStore.exportStorage []

/-- Witness for C5: export/import round-trip on a concrete two-entry
store. -/
theorem c5_storage_roundtrip_witness :
    wProvStore.exportStorage = .ok wSnap ∧
    ((∃ p1, wProvStore.importStorage wSnap = .ok p1 ∧
        ∀ k, p1.store.find k = wProvStore.store.find k) ∧
      (∃ p2, Provider.createFromStorage none wSnap = .ok p2 ∧
        ∀ k, p2.store.find k = wProvStore.store.find k)) :=
  ⟨by decide, c5_storage_roundtrip wProvStore wSnap (by decide)⟩

/-- Witness for C6: the concrete add leaves the epoch at 0 with a staged
commit; the merge moves to epoch 1 and clears it. -/
theorem c6_propose_then_merge_epoch_witness :
    Group.propose_and_commit_add wG0 wPA0 wAlice wBobKP =
      .ok (wMsgs, wG1, wPA1) ∧
    (wG1.epoch = wG0.epoch ∧ wG1.pendingCommit.isSome = true ∧
      ∃ g2 p2, Group.merge_pending_commit wG1 wPA1 = .ok (g2, p2) ∧
        g2.epoch = wG0.epoch + 1 ∧ g2.pendingCommit = none) :=
  ⟨by decide,
    c6_propose_then_merge_epoch wG0 wPA0 wAlice wBobKP wMsgs wG1 wPA1 (by decide)⟩

/-- A serialized application message, not a welcome. -/
def wAppBytes : Bytes := encodeMsg (.application 0 [1, 2])

/-- Witness for C7: `join` on a serialized application message fails with
`UnexpectedMessageType`. -/
theorem c7_join_rejects_non_welcome_witness :
    decodeMsg wAppBytes = some (.application 0 [1, 2]) ∧
    Group.join wProv wAppBytes [] = .err .unexpectedMessageType :=
  ⟨by decide,
    c7_join_rejects_non_welcome wProv wAppBytes [] (.application 0 [1, 2])
      (by decide) (by simp)⟩

def wId1Create : Identity × Provider :=
  outcomeValue (Identity.create wProv "alice" none) (wAlice, wProv)

def wId1 : Identity := wId1Create.1

def wP1a : Provider := wId1Create.2

def wEb : Bytes := outcomeValue wId1.export_keypair_bytes []

/-- Witness for C9: recovering the concrete identity "alice" on a second
provider reproduces her public key and credential bytes. -/
theorem c9_identity_recovery_witness :
    Identity.create wProv "alice" none = .ok (wId1, wP1a) ∧
    wId1.export_keypair_bytes = .ok wEb ∧
    ∃ id2 p2a,
      Identity.create wProvStore "alice" (some wEb) = .ok (id2, p2a) ∧
      id2.get_public_key_bytes = wId1.get_public_key_bytes ∧
      id2.get_credential_bytes = wId1.get_credential_bytes :=
  ⟨by decide, by decide,
    c9_identity_recovery wProv wProvStore "alice" none wId1 wP1a wEb
      (by decide) (by decide)⟩

def wExpRes : Bytes × GroupState :=
  outcomeValue (applyGroupOp wGF (.exportKeyOp wProv "chess_key" [48] 32))
    ([], wGF)

/-- Witness for C10: a concrete `export_key` call leaves the concrete
group unchanged and repeats identically. -/
theorem c10_export_key_frame_witness :
    applyGroupOp wGF (.exportKeyOp wProv "chess_key" [48] 32) =
      .ok (wExpRes.1, wExpRes.2) ∧
    (wExpRes.2 = wGF ∧
      applyGroupOp wExpRes.2 (.exportKeyOp wProv "chess_key" [48] 32) =
        .ok (wExpRes.1, wExpRes.2)) :=
  ⟨by decide,
    c10_export_key_frame wGF wProv "chess_key" [48] 32 wExpRes.1 wExpRes.2
      (by decide)⟩
